import Mathlib

/-!
Verification of the `tea-console` typed configuration store
(`src/tea_console/config.py`, `src/tea_console/errors.py`,
`src/tea_console/engine/config_engine.py`) by shallow embedding.

Python runtime values that flow through the store are embedded in the
`Value` type; Python exceptions in the `Exc` type; the stdlib `json`
module's behaviour on scalar values, the stdlib `configparser` state and
the external `pytz` library are modelled by small executable functions,
each documented at its definition.
-/

/-- Modelled from the spec: `tea_console/enums.py` (the `ConsoleFormat`
enum) is part of this repository but is not under `src/`.  Reconstructed
from the spec's "custom-enum-like" type tag and the uses in
`src/tea_console/console.py` and `src/tea_console/config.py`:
members `text` and `json`, whose `.value` is the member name, and calling
the enum on any other value raises `ValueError` (standard Python enum
behaviour). -/
inductive ConsoleFormat where
  | text
  | json
deriving DecidableEq, Repr

/-- The string `value` of a `ConsoleFormat` member. -/
def ConsoleFormat.value : ConsoleFormat → String
  | .text => "text"
  | .json => "json"

/-- `InvalidConfiguration.Op` from `src/tea_console/errors.py`. -/
inductive Op where
  | get
  | set
  | load
  | save
deriving DecidableEq, Repr

/-- Embedding of the Python runtime values that flow through the store:
JSON scalars (`None`, `bool`, `int`, `str`) plus the decoded objects
produced by the registered `to_value` converters (`ConsoleFormat`
members and `pytz` timezone objects, the latter identified by their
`zone` name). Floats are not modelled: no registered field produces or
consumes one. -/
inductive Value where
  | vnull
  | vbool (b : Bool)
  | vint (n : Int)
  | vstr (s : String)
  | vformat (f : ConsoleFormat)
  | vtz (zone : String)
deriving DecidableEq, Repr

/-- Embedding of the Python exceptions reachable in the embedded code:
`ValueError`, `KeyError`, `TypeError`, `AttributeError`, and the
repository's `InvalidConfiguration` (from `src/tea_console/errors.py`)
with its `message`, `key`, `value`, `error` (cause) and `operation`
fields.  The derived human-readable message computed by
`InvalidConfiguration.__init__` is a pure function of these fields and is
not separately modelled. -/
inductive Exc where
  | valueError (msg : String)
  | keyError (msg : String)
  | typeError (msg : String)
  | attributeError (msg : String)
  | invalidConfiguration (message : Option String) (key : Option String)
      (value : Option Value) (error : Option Exc) (operation : Op)

/-- `isinstance(e, ValueError)` for the embedded exceptions. -/
def Exc.isValueError : Exc → Bool
  | .valueError _ => true
  | _ => false

/-- `isinstance(e, errors.InvalidConfiguration)` for the embedded
exceptions. -/
def Exc.isInvalidConfiguration : Exc → Bool
  | .invalidConfiguration _ _ _ _ _ => true
  | _ => false

/-- The `operation` field of an `InvalidConfiguration`, if the exception
is one. -/
def Exc.icOperation : Exc → Option Op
  | .invalidConfiguration _ _ _ _ op => some op
  | _ => none

/-- The `key` field of an `InvalidConfiguration`, if the exception is
one. -/
def Exc.icKey : Exc → Option (Option String)
  | .invalidConfiguration _ k _ _ _ => some k
  | _ => none

/-! ## Model of `json.dumps` / `json.loads` on scalar values

`src/tea_console/config.py` calls the Python stdlib `json` module only on
scalar values (None, bools, ints, strings).  The model below serializes a
string by wrapping it in double quotes and escaping `"` and `\`
(`json.dumps` additionally escapes control and non-ASCII characters; any
correct escape produces the same `loads` result, so the simpler escape is
used), and parses the four scalar shapes (`null`, `true`, `false`, string
literals, integer literals).  Floats and composite JSON are not modelled;
a string the model does not parse is treated as a parse failure. -/

/-- Escape one character for a JSON string literal. -/
def escapeChar (c : Char) : List Char :=
  if c = '"' then ['\\', '"']
  else if c = '\\' then ['\\', '\\']
  else [c]

/-- Escape a character list for a JSON string literal body. -/
def jsonEscape : List Char → List Char
  | [] => []
  | c :: rest => escapeChar c ++ jsonEscape rest

/-- Resolve one JSON escape character (the character after a `\`). -/
def unescapeChar (d : Char) : Option Char :=
  if d = '"' then some '"'
  else if d = '\\' then some '\\'
  else if d = '/' then some '/'
  else if d = 'n' then some '\n'
  else if d = 't' then some '\t'
  else if d = 'r' then some '\r'
  else if d = 'b' then some (Char.ofNat 8)
  else if d = 'f' then some (Char.ofNat 12)
  else none

/-- Parse the body of a JSON string literal: consume characters up to a
closing `"` which must be the last character of the input. -/
def unescapeAux : List Char → Option (List Char)
  | [] => none
  | c :: rest =>
    if c = '"' then (if rest.isEmpty then some [] else none)
    else if c = '\\' then
      match rest with
      | [] => none
      | d :: rest2 =>
        match unescapeChar d with
        | none => none
        | some e => (unescapeAux rest2).map (fun l => e :: l)
    else (unescapeAux rest).map (fun l => c :: l)

/-- Parse a base-10 natural number from a non-empty all-digit character
list. -/
def parseNatList (cs : List Char) : Option Nat :=
  if cs.isEmpty then none
  else if cs.all Char.isDigit then
    some (cs.foldl (fun acc c => acc * 10 + (c.toNat - 48)) 0)
  else none

/-- Parse a JSON integer literal (optional leading minus). -/
def parseIntList : List Char → Option Value
  | '-' :: cs => (parseNatList cs).map (fun n => Value.vint (-(n : Int)))
  | cs => (parseNatList cs).map (fun n => Value.vint (n : Int))

/-- Model of `json.loads` on a character list: the literals `null`,
`true`, `false`, string literals and integer literals. -/
def jsonLoadsList (cs : List Char) : Option Value :=
  match cs with
  | ['n', 'u', 'l', 'l'] => some .vnull
  | ['t', 'r', 'u', 'e'] => some (.vbool true)
  | ['f', 'a', 'l', 's', 'e'] => some (.vbool false)
  | '"' :: rest => (unescapeAux rest).map (fun l => Value.vstr (String.mk l))
  | _ => parseIntList cs

/-- Model of `json.loads` restricted to scalar values. -/
def jsonLoads (s : String) : Option Value :=
  jsonLoadsList s.data

/-- Model of `json.dumps` on the embedded values.  Values that are not
JSON-serializable (the decoded `ConsoleFormat` / timezone objects, which
the source never passes to `json.dumps` directly) raise `TypeError`, as
`json.dumps` does. -/
def pyJsonDumps : Value → Except Exc String
  | .vnull => .ok "null"
  | .vbool true => .ok "true"
  | .vbool false => .ok "false"
  | .vint n => .ok (toString n)
  | .vstr s => .ok ("\"" ++ String.mk (jsonEscape s.data) ++ "\"")
  | .vformat _ => .error (.typeError "Object of type ConsoleFormat is not JSON serializable")
  | .vtz _ => .error (.typeError "Object of type tzinfo is not JSON serializable")

/-! ## Python string helpers used by `TeaConsoleConfig.set` -/

/-- Python `value.startswith('"')`. -/
def pyStartsWithQuote (s : String) : Bool :=
  match s.data with
  | '"' :: _ => true
  | _ => false

/-- Python `value.endswith('"')`. -/
def pyEndsWithQuote (s : String) : Bool :=
  match s.data.getLast? with
  | some '"' => true
  | _ => false

/-- The whitespace characters stripped by Python `str.strip()`. -/
def isPySpace (c : Char) : Bool :=
  c == ' ' || c == '\t' || c == '\n' || c == '\r' ||
    c == Char.ofNat 11 || c == Char.ofNat 12

/-- Python `str.strip()`. -/
def pyStrip (s : String) : String :=
  String.mk (((s.data.dropWhile isPySpace).reverse.dropWhile isPySpace).reverse)

/-- Python `str.lower()` (ASCII case folding suffices for the uses in the
source, which only compares against `"null"`). -/
def pyLower (s : String) : String :=
  String.mk (s.data.map Char.toLower)

/-! ## Model of the external `pytz` library

`pytz.timezone(name)` returns a timezone object whose `zone` attribute is
`name` when `name` is a known IANA zone, and otherwise raises
`UnknownTimeZoneError`, which pytz defines as
`class UnknownTimeZoneError(KeyError)` — a `KeyError`, not a
`ValueError`.  The zone database is external data; a small concrete list
stands in for it. -/

/-- Stand-in for the pytz zone-name database. -/
def knownZones : List String :=
  ["UTC", "Europe/Belgrade", "America/New_York", "Asia/Tokyo"]

/-- Model of `pytz.timezone`: the registered `to_value` converter of the
`timezone` field.  Raises `UnknownTimeZoneError` (a `KeyError`) on an
unknown zone name or a non-string argument. -/
def pytzTimezone : Value → Except Exc Value
  | .vstr z => if knownZones.contains z then .ok (.vtz z) else .error (.keyError z)
  | _ => .error (.keyError "not a zone name")

/-- The `to_string` converter of the `timezone` field:
`lambda v: v.zone`.  On a value with no `zone` attribute this raises
`AttributeError`, as Python attribute access does. -/
def tzZone : Value → Except Exc Value
  | .vtz z => .ok (.vstr z)
  | _ => .error (.attributeError "zone")

/-- Model of calling the `ConsoleFormat` enum as the `to_value` converter
of the `format` field: looks a member up by value and raises `ValueError`
on anything else (standard Python enum behaviour). -/
def ConsoleFormat.fromValue : Value → Except Exc Value
  | .vstr "text" => .ok (.vformat .text)
  | .vstr "json" => .ok (.vformat .json)
  | _ => .error (.valueError "is not a valid ConsoleFormat")

/-- The `to_string` converter of the `format` field:
`lambda v: v.value`. -/
def formatToString : Value → Except Exc Value
  | .vformat f => .ok (.vstr f.value)
  | _ => .error (.attributeError "value")

/-! ## The field descriptor registry (`src/tea_console/config.py`) -/

/-- The Python `type` object stored in a descriptor's `type` field; only
`str` (the dataclass default) and `bool` occur in the registry. -/
inductive PyType where
  | str
  | bool
deriving DecidableEq, Repr

/-- Python `entry.type.__name__`. -/
def PyType.name : PyType → String
  | .str => "str"
  | .bool => "bool"

/-- Python `type(value).__name__` for the embedded values. -/
def valueTypeName : Value → String
  | .vnull => "NoneType"
  | .vbool _ => "bool"
  | .vint _ => "int"
  | .vstr _ => "str"
  | .vformat _ => "ConsoleFormat"
  | .vtz _ => "tzfile"

/-- Python `isinstance(value, entry.type)` for parsed JSON scalars. -/
def isinstance : Value → PyType → Bool
  | .vstr _, .str => true
  | .vbool _, .bool => true
  | _, _ => false

/-- `ConfigField` from `src/tea_console/config.py` (the Python `section`
field is named `sec` here because `section` is a Lean keyword). -/
structure ConfigField where
  sec : String
  option : String
  type : PyType := .str
  to_value : Option (Value → Except Exc Value) := none
  to_string : Option (Value → Except Exc Value) := none

/-- `TeaConsoleConfig.ENTRIES`: the class-level registry, in declaration
order (Python dicts preserve insertion order). -/
def ENTRIES : List (String × ConfigField) :=
  [ ("debug", { sec := "general", option := "debug", type := .bool }),
    ("format", { sec := "general", option := "format",
                 to_value := some ConsoleFormat.fromValue,
                 to_string := some formatToString }),
    ("timezone", { sec := "general", option := "timezone",
                   to_value := some pytzTimezone,
                   to_string := some tzZone }),
    ("log_dir", { sec := "general", option := "log_dir" }) ]

/-! ## The configuration instance -/

/-- The live `TeaConsoleConfig` instance: one attribute per registered
field (the `_config_file` path attribute is carried by the explicit
file-state arguments of `load`/`save` instead). -/
structure TeaConsoleConfig where
  debug : Value
  format : Value
  timezone : Value
  log_dir : Value
deriving DecidableEq, Repr

/-- Python `getattr(self, field)` for the four registered attribute
names. -/
def TeaConsoleConfig.getattr (c : TeaConsoleConfig) (field : String) : Except Exc Value :=
  if field = "debug" then .ok c.debug
  else if field = "format" then .ok c.format
  else if field = "timezone" then .ok c.timezone
  else if field = "log_dir" then .ok c.log_dir
  else .error (.attributeError field)

/-- Python `setattr(self, field, v)` for the four registered attribute
names (the only names reachable: `set` checks membership in `ENTRIES`
first). -/
def TeaConsoleConfig.setattr (c : TeaConsoleConfig) (field : String) (v : Value) : TeaConsoleConfig :=
  if field = "debug" then { c with debug := v }
  else if field = "format" then { c with format := v }
  else if field = "timezone" then { c with timezone := v }
  else if field = "log_dir" then { c with log_dir := v }
  else c

/-- The quoting step of `TeaConsoleConfig.set`: wrap the raw input in
double quotes when the declared type is `str`, the input is not already
quoted, and the stripped lower-cased input is not the literal `null`. -/
def quoteWrap (entry : ConfigField) (value : String) : String :=
  if entry.type = .str
      && !(pyStartsWithQuote value && pyEndsWithQuote value)
      && pyLower (pyStrip value) != "null"
  then "\"" ++ value ++ "\""
  else value

/-- The `Type mismatch.` message raised by `TeaConsoleConfig.set`. -/
def typeMismatchMsg (entry : ConfigField) (v : Value) : String :=
  "Type mismatch. " ++ entry.type.name ++ " != " ++ valueTypeName v

/-- The shape check of `TeaConsoleConfig.set`:
`value is not None and not isinstance(value, entry.type)`. -/
def shapeMismatch (entry : ConfigField) (v : Value) : Bool :=
  match v with
  | .vnull => false
  | _ => !(isinstance v entry.type)

/-- The body of the `try` block of `TeaConsoleConfig.set`: key check,
quoting, `json.loads`, shape check, optional `to_value` conversion,
`setattr`.  An error is paired with the value the Python local `value`
holds at the raise point (the raw string, the wrapped string, or the
parsed scalar), because the `except` clause reads that local. -/
def setAttempt (c : TeaConsoleConfig) (field : String) (value : String) :
    Except (Exc × Value) TeaConsoleConfig :=
  match ENTRIES.lookup field with
  | none =>
    .error (.valueError ("Invalid configuration key: " ++ field), .vstr value)
  | some entry =>
    let value1 := quoteWrap entry value
    match jsonLoads value1 with
    | none =>
      .error (.valueError ("Cannot parse '" ++ value1 ++ "' as '" ++ entry.type.name ++ "'."),
        .vstr value1)
    | some v2 =>
      if shapeMismatch entry v2 then
        .error (.valueError (typeMismatchMsg entry v2), v2)
      else
        match entry.to_value with
        | none => .ok (c.setattr field v2)
        | some f =>
          match f v2 with
          | .ok v3 => .ok (c.setattr field v3)
          | .error e => .error (e, v2)

/-- `TeaConsoleConfig.set`: run the body and apply the
`except ValueError` clause, which wraps the error as
`InvalidConfiguration(key=field, value=value, operation=set, error=e)`.
Exceptions that are not `ValueError` (e.g. pytz's
`UnknownTimeZoneError`, a `KeyError`) propagate unwrapped. -/
def TeaConsoleConfig.set (c : TeaConsoleConfig) (field : String) (value : String) :
    Except Exc TeaConsoleConfig :=
  match setAttempt c field value with
  | .ok c2 => .ok c2
  | .error (e, v) =>
    if e.isValueError then
      .error (.invalidConfiguration none (some field) (some v) (some e) .set)
    else
      .error e

/-- `TeaConsoleConfig.get`: registry lookup (a plain Python dict
subscript, raising `KeyError` on a missing key), attribute read, optional
`to_string` conversion, `json.dumps`. -/
def TeaConsoleConfig.get (c : TeaConsoleConfig) (field : String) : Except Exc String :=
  match ENTRIES.lookup field with
  | none => .error (.keyError field)
  | some entry => do
    let v ← c.getattr field
    let v ← match entry.to_string with
      | none => pure v
      | some f => f v
    pyJsonDumps v

/-! ## Model of the `configparser` state and `load` / `save`

`ConfigParser` is modelled at section/option granularity: a parsed file
is a list of sections, each a list of `(option, value)` pairs (the actual
`ConfigParser` forbids duplicate sections and options, and lower-cases
option names; the registry only uses lower-case names).  The
`load`/`save` methods take the backing-file state as an explicit argument
(`none` = the file does not exist) in place of reading
`self._config_file`; the `os.makedirs` call and actual file I/O (whose
failures the source wraps the same way as any other exception) are
outside the model. -/

/-- A parsed sectioned key/value file. -/
abbrev CPData := List (String × List (String × String))

/-- `ConfigParser.has_section`. -/
def cpHasSection (cp : CPData) (s : String) : Bool :=
  cp.any (fun p => p.1 == s)

/-- `ConfigParser.add_section`: appends an empty section. -/
def cpAddSection (cp : CPData) (s : String) : CPData :=
  cp ++ [(s, [])]

/-- Set an option inside one section's pair list (update the first
occurrence in place, else append). -/
def cpSetOpt : List (String × String) → String → String → List (String × String)
  | [], o, v => [(o, v)]
  | (o2, v2) :: rest, o, v =>
    if o2 == o then (o, v) :: rest else (o2, v2) :: cpSetOpt rest o v

/-- `ConfigParser.set section option value` (the section exists: `save`
adds it first). -/
def cpSet (cp : CPData) (s o v : String) : CPData :=
  cp.map (fun p => if p.1 == s then (p.1, cpSetOpt p.2 o v) else p)

/-- Look an option up: `ConfigParser.get` when present. -/
def cpGetOpt (cp : CPData) (s o : String) : Option String :=
  (cp.find? (fun p => p.1 == s)).bind
    (fun p => (p.2.find? (fun q => q.1 == o)).map (fun q => q.2))

/-- `ConfigParser.has_option`. -/
def cpHasOption (cp : CPData) (s o : String) : Bool :=
  (cpGetOpt cp s o).isSome

/-- `ConfigParser.get` with a present option (the source only calls it
under `has_option`). -/
def cpGet (cp : CPData) (s o : String) : String :=
  (cpGetOpt cp s o).getD ""

/-- The `for field, entry in self.ENTRIES.items()` loop of
`TeaConsoleConfig.load`: for each registered field present in the file,
`set` the stored string; an `InvalidConfiguration` raised by `set` is
re-raised unchanged, any other exception is wrapped with
`key=f"{entry.section}.{entry.option}"` and `operation=load`.  The first
error aborts the remaining fields. -/
def loadFields (c : TeaConsoleConfig) (cp : CPData) :
    List (String × ConfigField) → Except Exc TeaConsoleConfig
  | [] => .ok c
  | (field, entry) :: rest =>
    if cpHasOption cp entry.sec entry.option then
      match c.set field (cpGet cp entry.sec entry.option) with
      | .ok c2 => loadFields c2 cp rest
      | .error e =>
        if e.isInvalidConfiguration then .error e
        else
          .error (.invalidConfiguration none (some (entry.sec ++ "." ++ entry.option))
            none (some e) .load)
    else loadFields c cp rest

/-- `TeaConsoleConfig.load`: no-op when the backing file does not exist,
otherwise run the per-field loop over the parsed file.  (The
`ConfigParser.read` failure branch, which wraps the error in an
`InvalidConfiguration` with only a message, is unreachable here because
the model receives the file already parsed.) -/
def TeaConsoleConfig.load (c : TeaConsoleConfig) (file : Option CPData) :
    Except Exc TeaConsoleConfig :=
  match file with
  | none => .ok c
  | some cp => loadFields c cp ENTRIES

/-- The `for field, entry in self.ENTRIES.items()` loop of
`TeaConsoleConfig.save`: ensure the section exists, then write
`self.get(field)` into `(section, option)`. -/
def saveFields (c : TeaConsoleConfig) (cp : CPData) :
    List (String × ConfigField) → Except Exc CPData
  | [] => .ok cp
  | (field, entry) :: rest =>
    let cp1 := if cpHasSection cp entry.sec then cp else cpAddSection cp entry.sec
    match c.get field with
    | .error e => .error e
    | .ok s => saveFields c (cpSet cp1 entry.sec entry.option s) rest

/-- `TeaConsoleConfig.save`: start from the existing file contents when
the file exists (else empty), write every registered field, and wrap any
exception that is not an `InvalidConfiguration` with `operation=save`.
Returns the new file contents. -/
def TeaConsoleConfig.save (c : TeaConsoleConfig) (file : Option CPData) :
    Except Exc CPData :=
  let cp0 := match file with
    | some cp => cp
    | none => ([] : CPData)
  match saveFields c cp0 ENTRIES with
  | .ok cp => .ok cp
  | .error e =>
    if e.isInvalidConfiguration then .error e
    else .error (.invalidConfiguration none none none (some e) .save)

/-! ## The specialization resolver -/

/-- A configuration class together with its direct subclasses
(`klass.__subclasses__()`), labelled by the class name; the label of the
resolved class stands in for `klass.instance`. -/
inductive KlassTree where
  | node (label : String) (subclasses : List KlassTree)

/-- The error raised by `get_application_config` on a branching
inheritance chain.  `InvalidConfiguration` is constructed with only a
positional message, so `operation` keeps its default, `Op.get`. -/
def straightLineError : Exc :=
  .invalidConfiguration (some "There should be a straight line of config inheritance.")
    none none none .get

/-- `TeaConsoleConfig.get_application_config`: walk the subclass chain
from the receiver class; zero subclasses — return this class's singleton,
exactly one — descend, two or more — raise. -/
def get_application_config : KlassTree → Except Exc String
  | .node label [] => .ok label
  | .node _ [k] => get_application_config k
  | .node _ _ => .error straightLineError

/-! ## The dotted-key engine (`src/tea_console/engine/config_engine.py`) -/

/-- Python `str.split(sep)` for a one-character separator: splitting an
`n`-separator string yields `n + 1` parts. -/
def splitOnChar (sep : Char) : List Char → List (List Char)
  | [] => [[]]
  | x :: xs =>
    let r := splitOnChar sep xs
    if x = sep then [] :: r
    else
      match r with
      | [] => [[x]]
      | y :: ys => (x :: y) :: ys

/-- `key.count(".") != 1` is equivalent to `splitOnChar` yielding other
than two parts. -/
theorem splitOnChar_length (sep : Char) (l : List Char) :
    (splitOnChar sep l).length = l.count sep + 1 := by
  induction l with
  | nil => rfl
  | cons x xs ih =>
    by_cases h : x = sep
    · simp [splitOnChar, h, List.count_cons, ih]
    · have hne : (splitOnChar sep xs).length ≠ 0 := by
        rw [ih]; omega
      rcases hr : splitOnChar sep xs with _ | ⟨y, ys⟩
      · simp [hr] at hne
      · simp [splitOnChar, h, List.count_cons, ← ih, hr]

/-- The error-wrapping `except` clause of `ConfigEngine.set`:
`InvalidConfiguration(key=key, value=value, error=e, operation=set)`. -/
def engineWrap (key value : String) (e : Exc) : Exc :=
  .invalidConfiguration none (some key) (some (.vstr value)) (some e) .set

/-- The message of the `ValueError` raised by `ConfigEngine.set` on a bad
dotted key. -/
def invalidKeyMsg (key : String) : String :=
  "Invalid configuration key: " ++ key ++ ". Valid format: `section.option`"

/-- `ConfigEngine.set` from `src/tea_console/engine/config_engine.py`:
validate that the key has exactly one `.` (the source tests
`key.count(".") != 1`; by `splitOnChar_length` that is the same as
`key.split(".")` yielding other than two parts, which is how the guard is
phrased here so the parts are in scope), then scan `ENTRIES` for a
descriptor with matching `(section, option)`; on a match run
`config.set` then `config.save` and stop; with no match fall through with
no effect.  The `except` clause re-raises `InvalidConfiguration`
unchanged and wraps any other exception via `engineWrap`; inside the loop
the Python local `key` has been shadowed by the field name, so errors
raised there are wrapped with the field name as the key.  The
`tea_console` copy is modelled; the `console_tea` copy differs only in
raising the bad-key `ValueError` outside its `try`, hence unwrapped. -/
def ConfigEngine.set (c : TeaConsoleConfig) (file : Option CPData) (key value : String) :
    Except Exc (TeaConsoleConfig × Option CPData) :=
  match splitOnChar '.' key.data with
  | [secL, optL] =>
    let sec := String.mk secL
    let opt := String.mk optL
    match ENTRIES.find? (fun p => p.2.sec == sec && p.2.option == opt) with
    | none => .ok (c, file)
    | some (fname, _) =>
      match c.set fname value with
      | .error e =>
        if e.isInvalidConfiguration then .error e else .error (engineWrap fname value e)
      | .ok c2 =>
        match c2.save file with
        | .error e =>
          if e.isInvalidConfiguration then .error e else .error (engineWrap fname value e)
        | .ok cp2 => .ok (c2, some cp2)
  | _ => .error (engineWrap key value (.valueError (invalidKeyMsg key)))

/-! ## Round-trip lemmas for the JSON scalar model -/

/-- Structure eta for strings. -/
theorem String_mk_data (s : String) : String.mk s.data = s := rfl

/-- Unescaping inverts escaping: parsing the escaped body followed by the
closing quote recovers the original characters. -/
theorem unescape_escape (cs : List Char) :
    unescapeAux (jsonEscape cs ++ ['"']) = some cs := by
  induction cs with
  | nil => rfl
  | cons c rest ih =>
    by_cases h1 : c = '"'
    · simp [jsonEscape, escapeChar, h1, unescapeAux, unescapeChar, ih]
    · by_cases h2 : c = '\\'
      · simp [jsonEscape, escapeChar, h1, h2, unescapeAux, unescapeChar, ih]
      · simp only [jsonEscape, escapeChar, if_neg h1, if_neg h2, List.singleton_append,
          List.cons_append]
        rw [unescapeAux.eq_def]
        simp [if_neg h1, if_neg h2, ih]

/-- The character list of a quote-wrapped string. -/
theorem data_quoted (x : String) :
    ("\"" ++ x ++ "\"").data = '"' :: (x.data ++ ['"']) := by
  simp [String.data_append]

/-- `json.loads` inverts `json.dumps` on string values. -/
theorem jsonLoads_dumps_str (s : String) :
    jsonLoads ("\"" ++ String.mk (jsonEscape s.data) ++ "\"") = some (.vstr s) := by
  rw [jsonLoads, data_quoted]
  simp [jsonLoadsList, unescape_escape, String_mk_data]

/-- A quote-wrapped string starts with a quote. -/
theorem pyStartsWithQuote_quoted (x : String) :
    pyStartsWithQuote ("\"" ++ x ++ "\"") = true := by
  rw [pyStartsWithQuote, data_quoted]
  rfl

/-- The last element of a list ending in a singleton. -/
theorem getLast?_append_singleton (l : List Char) (a : Char) :
    (l ++ [a]).getLast? = some a := by
  induction l with
  | nil => rfl
  | cons x xs ih =>
    rw [List.cons_append, List.getLast?_cons, ih]
    rfl

/-- A quote-wrapped string ends with a quote. -/
theorem pyEndsWithQuote_quoted (x : String) :
    pyEndsWithQuote ("\"" ++ x ++ "\"") = true := by
  rw [pyEndsWithQuote, data_quoted, List.getLast?_cons, getLast?_append_singleton]
  rfl

/-- `quoteWrap` leaves an already-quoted value alone. -/
theorem quoteWrap_of_quoted (entry : ConfigField) (v : String)
    (hq : (pyStartsWithQuote v && pyEndsWithQuote v) = true) :
    quoteWrap entry v = v := by
  rw [quoteWrap, hq]
  simp

/-! ## Concrete fixtures shared by the witnesses -/

/-- A concrete configuration instance holding one valid typed value per
registered field. -/
def cfg0 : TeaConsoleConfig :=
  { debug := .vbool true, format := .vformat .text,
    timezone := .vtz "UTC", log_dir := .vstr "/tmp/logs" }

/-- `cfg0` after `set("debug", "false")`. -/
def cfgDebugFalse : TeaConsoleConfig :=
  { debug := .vbool false, format := .vformat .text,
    timezone := .vtz "UTC", log_dir := .vstr "/tmp/logs" }

/-- A backing file holding a section and an option the registry does not
own. -/
def cpUnrelated : CPData :=
  [("extra", [("k", "v")]), ("general", [("other", "1")])]

/-- The descriptor of the `debug` field, as registered in `ENTRIES`. -/
def debugField : ConfigField :=
  { sec := "general", option := "debug", type := .bool }

/-! ## C10 -/

/-- C10: calling `get` with a field name that is not in the registry
raises the raw `KeyError` of the Python dict subscript
`self.ENTRIES[field]`, which is not an `InvalidConfiguration` — unlike
`set`, `get` does not guard the unknown-field case. -/
theorem get_unknown_field_keyerror (c : TeaConsoleConfig) (field : String)
    (h : ENTRIES.lookup field = none) :
    c.get field = .error (.keyError field) ∧
      (Exc.keyError field).isInvalidConfiguration = false := by
  constructor
  · rw [TeaConsoleConfig.get, h]
  · rfl

/-- Witness for C10 at the concrete unknown field name `"nope"`. -/
theorem get_unknown_field_keyerror_witness :
    cfg0.get "nope" = .error (.keyError "nope") ∧
      (Exc.keyError "nope").isInvalidConfiguration = false :=
  get_unknown_field_keyerror cfg0 "nope" rfl

/-! ## C5 -/

/-- C5: `get_application_config`, starting from the base definition,
returns the current definition's singleton when it has zero direct
subclasses, descends when it has exactly one, and raises the structural
`InvalidConfiguration` when a definition on the chain has two or more
direct subclasses — in the branching case the result is never the
singleton of any branch. -/
theorem get_application_config_spec :
    (∀ l, get_application_config (.node l []) = .ok l) ∧
    (∀ l k, get_application_config (.node l [k]) = get_application_config k) ∧
    (∀ l subs, 2 ≤ subs.length →
      get_application_config (.node l subs) = .error straightLineError) := by
  refine ⟨fun l => by simp [get_application_config],
    fun l k => by simp [get_application_config],
    fun l subs h => ?_⟩
  match subs with
  | [] => simp at h
  | [k] => simp at h
  | a :: b :: rest => simp [get_application_config]

/-- Witness for C5: a two-level straight chain resolves to the most
specific definition, and a branching chain raises. -/
theorem get_application_config_spec_witness :
    get_application_config (.node "Base" [.node "App" []]) = .ok "App" ∧
    get_application_config (.node "Base" [.node "A" [], .node "B" []]) =
      .error straightLineError := by
  constructor
  · rw [get_application_config_spec.2.1 "Base" (.node "App" [])]
    exact get_application_config_spec.1 "App"
  · exact get_application_config_spec.2.2 "Base" [.node "A" [], .node "B" []] (by decide)

/-! ## C8 -/

/-- C8 counterexample: the key `".debug"` has exactly one `.` but an
empty section part, so it does not split into two non-empty parts — yet
`ConfigEngine.set` does not fail: the key passes the dot-count check,
no descriptor has an empty section, and the call silently succeeds
without touching the store. -/
theorem engine_set_empty_section_counterexample :
    splitOnChar '.' ".debug".data = [[], "debug".data] ∧
    ConfigEngine.set cfg0 none ".debug" "x" = .ok (cfg0, none) :=
  ⟨rfl, rfl⟩

/-- C8 amended: `ConfigEngine.set` validates only that the key contains
exactly one `.` (`key.count(".") != 1`); when the count differs from 1
it fails with the key-format `ValueError` naming the required
`section.option` shape, wrapped as `InvalidConfiguration` with
operation=set, before any registry scan, `set` or `save`.  A key with
exactly one dot but an empty part passes this validation and falls
through to the (no-match) scan. -/
theorem engine_set_dot_count_validation (c : TeaConsoleConfig) (file : Option CPData)
    (key value : String) (h : key.data.count '.' ≠ 1) :
    ConfigEngine.set c file key value =
      .error (engineWrap key value (.valueError (invalidKeyMsg key))) := by
  have hlen : (splitOnChar '.' key.data).length ≠ 2 := by
    rw [splitOnChar_length]
    omega
  simp only [ConfigEngine.set]
  split
  · next secL optL heq =>
    rw [heq] at hlen
    simp at hlen
  · rfl

/-- Witness for C8 (amended) at the concrete key `"badkey"` (zero
dots). -/
theorem engine_set_dot_count_validation_witness :
    ConfigEngine.set cfg0 none "badkey" "x" =
      .error (engineWrap "badkey" "x" (.valueError (invalidKeyMsg "badkey"))) :=
  engine_set_dot_count_validation cfg0 none "badkey" "x" (by decide)

/-! ## C9 -/

/-- The backing file produced by `save` after `set("debug", "false")` on
`cfg0` starting from an empty (but existing) file. -/
def cpSavedDebug : CPData :=
  [("general",
    [("debug", "false"), ("format", "\"text\""), ("timezone", "\"UTC\""),
     ("log_dir", "\"/tmp/logs\"")])]

/-- C9: for a syntactically valid dotted key, `ConfigEngine.set`
linearly scans the registry; when a descriptor with matching
`(section, option)` is found it performs `set` followed immediately by
`save` (shown here on the successful path: the result is the updated
instance and the saved file), and when no descriptor matches it returns
successfully with the in-memory instance and the backing file
unchanged. -/
theorem engine_set_scan_behavior (c : TeaConsoleConfig) (file : Option CPData)
    (key value : String) (secL optL : List Char)
    (hs : splitOnChar '.' key.data = [secL, optL]) :
    (ENTRIES.find? (fun p => p.2.sec == String.mk secL && p.2.option == String.mk optL) =
        none →
      ConfigEngine.set c file key value = .ok (c, file)) ∧
    (∀ fname fld c2 cp2,
      ENTRIES.find? (fun p => p.2.sec == String.mk secL && p.2.option == String.mk optL) =
          some (fname, fld) →
      c.set fname value = .ok c2 →
      c2.save file = .ok cp2 →
      ConfigEngine.set c file key value = .ok (c2, some cp2)) := by
  constructor
  · intro hfind
    simp only [ConfigEngine.set, hs]
    simp [hfind]
  · intro fname fld c2 cp2 hfind hset hsave
    simp only [ConfigEngine.set, hs]
    simp [hfind, hset, hsave]

/-- Witness for C9: `set("general.debug", "false")` on `cfg0` over an
empty existing file updates the instance and writes the file, and
`set("general.nosuch", "x")` succeeds with no effect. -/
theorem engine_set_scan_behavior_witness :
    ConfigEngine.set cfg0 (some []) "general.debug" "false" =
      .ok (cfgDebugFalse, some cpSavedDebug) ∧
    ConfigEngine.set cfg0 (some []) "general.nosuch" "x" = .ok (cfg0, some []) := by
  constructor
  · exact (engine_set_scan_behavior cfg0 (some []) "general.debug" "false"
      "general".data "debug".data rfl).2 "debug" debugField cfgDebugFalse cpSavedDebug
      rfl rfl rfl
  · exact (engine_set_scan_behavior cfg0 (some []) "general.nosuch" "x"
      "general".data "nosuch".data rfl).1 rfl

/-! ## C3 -/

/-- C3: for every registered field and every raw string whose (possibly
quote-wrapped) form parses as a non-null JSON scalar whose runtime shape
does not match the field's declared type, `set` fails with the
`Type mismatch.` `ValueError` wrapped as `InvalidConfiguration` with
operation=set — and, the result being an error, the in-memory instance
is not mutated (assignment happens only after successful coercion). -/
theorem set_type_mismatch_rejected (c : TeaConsoleConfig) (field : String)
    (entry : ConfigField) (raw : String) (v : Value)
    (hlook : ENTRIES.lookup field = some entry)
    (hparse : jsonLoads (quoteWrap entry raw) = some v)
    (hnn : v ≠ .vnull)
    (hmis : isinstance v entry.type = false) :
    c.set field raw =
      .error (.invalidConfiguration none (some field) (some v)
        (some (.valueError (typeMismatchMsg entry v))) .set) := by
  have hmm : shapeMismatch entry v = true := by
    cases v
    · exact absurd rfl hnn
    all_goals simp [shapeMismatch, hmis]
  simp only [TeaConsoleConfig.set, setAttempt, hlook, hparse, hmm]
  simp [Exc.isValueError]

/-- Witness for C3: `set("debug", "\"notabool\"")` on `cfg0` (the field
is boolean, the value parses as the string `notabool`). -/
theorem set_type_mismatch_rejected_witness :
    cfg0.set "debug" "\"notabool\"" =
      .error (.invalidConfiguration none (some "debug") (some (.vstr "notabool"))
        (some (.valueError (typeMismatchMsg debugField (.vstr "notabool")))) .set) :=
  set_type_mismatch_rejected cfg0 "debug" debugField "\"notabool\"" (.vstr "notabool")
    rfl rfl (by decide) rfl

/-! ## C6 -/

/-- C6 counterexample: the `timezone` field's decoder is
`pytz.timezone`, which raises `UnknownTimeZoneError` — a `KeyError`, not
a `ValueError` — on an unknown zone name; `set` only catches
`ValueError`, so this decoder exception escapes `set` unwrapped instead
of being rewrapped as `InvalidConfiguration`. -/
theorem set_decoder_exception_escapes_counterexample :
    cfg0.set "timezone" "\"Bad/Zone\"" = .error (.keyError "Bad/Zone") ∧
      (Exc.keyError "Bad/Zone").isInvalidConfiguration = false :=
  ⟨rfl, rfl⟩

/-- C6 amended: when a field's `to_value` decoder raises on a
successfully parsed and shape-accepted scalar, `set` rewraps the
exception as `InvalidConfiguration` carrying the field name, the parsed
value, the underlying cause and operation=set only when the exception is
a `ValueError`; any other decoder exception (e.g. pytz's
`UnknownTimeZoneError`, a `KeyError`) escapes `set` unwrapped. -/
theorem set_decoder_exception_handling (c : TeaConsoleConfig) (field : String)
    (entry : ConfigField) (raw : String) (v : Value)
    (f : Value → Except Exc Value) (e : Exc)
    (hlook : ENTRIES.lookup field = some entry)
    (hparse : jsonLoads (quoteWrap entry raw) = some v)
    (hshape : shapeMismatch entry v = false)
    (hto : entry.to_value = some f)
    (hf : f v = .error e) :
    c.set field raw =
      (if e.isValueError then
        .error (.invalidConfiguration none (some field) (some v) (some e) .set)
      else .error e) := by
  simp only [TeaConsoleConfig.set, setAttempt, hlook, hparse, hshape, hto, hf]
  cases he : e.isValueError <;> simp [he]

/-- Witness for C6 (amended), on both branches: the `format` decoder's
`ValueError` is rewrapped, the `timezone` decoder's `KeyError` is not. -/
theorem set_decoder_exception_handling_witness :
    cfg0.set "format" "\"huh\"" =
      (if (Exc.valueError "is not a valid ConsoleFormat").isValueError then
        .error (.invalidConfiguration none (some "format") (some (.vstr "huh"))
          (some (.valueError "is not a valid ConsoleFormat")) .set)
      else .error (.valueError "is not a valid ConsoleFormat")) ∧
    cfg0.set "timezone" "\"Nope/Nope\"" =
      (if (Exc.keyError "Nope/Nope").isValueError then
        .error (.invalidConfiguration none (some "timezone") (some (.vstr "Nope/Nope"))
          (some (.keyError "Nope/Nope")) .set)
      else .error (.keyError "Nope/Nope")) := by
  constructor
  · exact set_decoder_exception_handling cfg0 "format"
      { sec := "general", option := "format", to_value := some ConsoleFormat.fromValue,
        to_string := some formatToString }
      "\"huh\"" (.vstr "huh") ConsoleFormat.fromValue
      (.valueError "is not a valid ConsoleFormat") rfl rfl rfl rfl rfl
  · exact set_decoder_exception_handling cfg0 "timezone"
      { sec := "general", option := "timezone", to_value := some pytzTimezone,
        to_string := some tzZone }
      "\"Nope/Nope\"" (.vstr "Nope/Nope") pytzTimezone (.keyError "Nope/Nope")
      rfl rfl rfl rfl rfl

/-! ## C7 -/

/-- C7 counterexample: loading a file in which `general.debug` holds the
unparsable string `garbage` aborts the load, but the surfaced
`InvalidConfiguration` is the one re-raised unchanged from `set`: its
operation is `set` (not `load`) and its key is the field name `"debug"`
(not the `(section, option)` pair `"general.debug"`). -/
theorem load_coercion_error_counterexample :
    cfg0.load (some [("general", [("debug", "garbage")])]) =
      .error (.invalidConfiguration none (some "debug") (some (.vstr "garbage"))
        (some (.valueError "Cannot parse 'garbage' as 'bool'.")) .set) ∧
    Exc.icOperation (.invalidConfiguration none (some "debug") (some (.vstr "garbage"))
        (some (.valueError "Cannot parse 'garbage' as 'bool'.")) .set) = some .set :=
  ⟨rfl, rfl⟩

/-- C7 amended: during `load`, when `set` fails on a registered field
whose `(section, option)` exists in the file, the whole load aborts at
that field (the remaining fields are never processed); an
`InvalidConfiguration` raised by `set` is re-raised unchanged (so it
carries operation=set and the field name as key), and only an exception
that is not an `InvalidConfiguration` is wrapped with the offending
`section.option` as its key and the `load` operation kind. -/
theorem load_error_wrapping (c : TeaConsoleConfig) (cp : CPData) (field : String)
    (entry : ConfigField) (rest : List (String × ConfigField)) (e : Exc)
    (hhas : cpHasOption cp entry.sec entry.option = true)
    (hset : c.set field (cpGet cp entry.sec entry.option) = .error e) :
    loadFields c cp ((field, entry) :: rest) =
      .error (if e.isInvalidConfiguration then e
        else .invalidConfiguration none (some (entry.sec ++ "." ++ entry.option))
          none (some e) .load) := by
  simp only [loadFields, hhas, hset]
  cases hic : e.isInvalidConfiguration <;> simp [hic]

/-- Witness for C7 (amended): the first registered field (`debug`) with
an unparsable stored value aborts the loop over the whole registry with
the set-operation error re-raised unchanged. -/
theorem load_error_wrapping_witness :
    loadFields cfg0 [("general", [("debug", "garbage")])] ENTRIES =
      .error (if (Exc.invalidConfiguration none (some "debug") (some (.vstr "garbage"))
          (some (.valueError "Cannot parse 'garbage' as 'bool'.")) .set).isInvalidConfiguration
        then (.invalidConfiguration none (some "debug") (some (.vstr "garbage"))
          (some (.valueError "Cannot parse 'garbage' as 'bool'.")) .set)
        else .invalidConfiguration none (some "general.debug") none
          (some (.invalidConfiguration none (some "debug") (some (.vstr "garbage"))
            (some (.valueError "Cannot parse 'garbage' as 'bool'.")) .set)) .load) :=
  load_error_wrapping cfg0 [("general", [("debug", "garbage")])] "debug" debugField
    (ENTRIES.drop 1) (.invalidConfiguration none (some "debug") (some (.vstr "garbage"))
      (some (.valueError "Cannot parse 'garbage' as 'bool'.")) .set) rfl rfl

/-! ## C4 -/

/-- C4: for every string-typed field, a raw input that is not already
wrapped in double quotes and whose stripped lower-cased form is not
`null` behaves exactly like the same input wrapped in double quotes; in
particular `set("format", "json")` succeeds (decoding to the `json` enum
member) and is equivalent to `set("format", "\"json\"")`. -/
theorem set_bare_string_quoting_equiv :
    (∀ (c : TeaConsoleConfig) (field : String) (entry : ConfigField) (raw : String),
      ENTRIES.lookup field = some entry →
      entry.type = .str →
      (pyStartsWithQuote raw && pyEndsWithQuote raw) = false →
      pyLower (pyStrip raw) ≠ "null" →
      c.set field raw = c.set field ("\"" ++ raw ++ "\"")) ∧
    (∀ c : TeaConsoleConfig,
      c.set "format" "json" = .ok (c.setattr "format" (.vformat .json)) ∧
      c.set "format" "json" = c.set "format" "\"json\"") := by
  constructor
  · intro c field entry raw hlook htype hq hnull
    have hwrap : quoteWrap entry raw = "\"" ++ raw ++ "\"" := by
      simp [quoteWrap, htype, hq, hnull]
    have hwrap2 : quoteWrap entry ("\"" ++ raw ++ "\"") = "\"" ++ raw ++ "\"" :=
      quoteWrap_of_quoted entry _
        (by simp [pyStartsWithQuote_quoted, pyEndsWithQuote_quoted])
    simp only [TeaConsoleConfig.set, setAttempt, hlook, hwrap, hwrap2]
  · exact fun c => ⟨rfl, rfl⟩

/-- Witness for C4: the `format` examples from the spec, and the
general equivalence instantiated at the string-typed `log_dir` field
with the bare raw input `mydir`. -/
theorem set_bare_string_quoting_equiv_witness :
    cfg0.set "format" "json" = .ok (cfg0.setattr "format" (.vformat .json)) ∧
    cfg0.set "format" "json" = cfg0.set "format" "\"json\"" ∧
    cfg0.set "log_dir" "mydir" = cfg0.set "log_dir" "\"mydir\"" :=
  ⟨(set_bare_string_quoting_equiv.2 cfg0).1,
   (set_bare_string_quoting_equiv.2 cfg0).2,
   set_bare_string_quoting_equiv.1 cfg0 "log_dir"
     { sec := "general", option := "log_dir" } "mydir" rfl rfl rfl (by decide)⟩

/-! ## C2 -/

/-- The `(section, option)` pairs owned by the registry. -/
def ownedPairs : List (String × String) :=
  ENTRIES.map (fun q => (q.2.sec, q.2.option))

/-- `add_section` changes no option lookup: the new section is empty and
appended after any existing section of the same name. -/
theorem cpGetOpt_addSection (cp : CPData) (t s o : String) :
    cpGetOpt (cpAddSection cp t) s o = cpGetOpt cp s o := by
  rw [cpGetOpt, cpGetOpt, cpAddSection, List.find?_append]
  cases hf : cp.find? (fun p => p.1 == s) with
  | some p => simp
  | none => cases ht : (t == s) <;> simp [List.find?, ht]

/-- Setting option `o` in a pair list does not change the lookup of a
different option `o2`. -/
theorem cpSetOpt_find?_ne (l : List (String × String)) (o v o2 : String)
    (h : (o == o2) = false) :
    (cpSetOpt l o v).find? (fun q => q.1 == o2) = l.find? (fun q => q.1 == o2) := by
  induction l with
  | nil => simp [cpSetOpt, List.find?, h]
  | cons a l ih =>
    obtain ⟨a1, a2⟩ := a
    rw [cpSetOpt]
    cases hx : (a1 == o) with
    | true =>
      have ha : a1 = o := by simpa using hx
      subst ha
      simp [List.find?, h]
    | false =>
      cases hy : (a1 == o2) with
      | true => simp [List.find?, hy]
      | false => simp [List.find?, hx, hy, ih]

/-- `ConfigParser.set` on section `t`, option `p` does not change the
lookup of any other `(section, option)` pair. -/
theorem cpGetOpt_cpSet_ne (cp : CPData) (t p v s o : String)
    (h : ¬(s = t ∧ o = p)) :
    cpGetOpt (cpSet cp t p v) s o = cpGetOpt cp s o := by
  induction cp with
  | nil => rfl
  | cons a cp ih =>
    obtain ⟨a1, opts⟩ := a
    simp only [cpSet, List.map_cons] at *
    cases h1 : (a1 == s) with
    | true =>
      have ha : a1 = s := by simpa using h1
      subst ha
      cases h2 : (a1 == t) with
      | true =>
        have hat : a1 = t := by simpa using h2
        have hop : (p == o) = false := by
          have : ¬(o = p) := fun ho => h ⟨hat, ho⟩
          simp [this]
          exact fun hpo => this hpo.symm
        simp [cpGetOpt, List.find?, h2, cpSetOpt_find?_ne _ _ _ _ hop]
      | false =>
        simp [cpGetOpt, List.find?, h2]
    | false =>
      cases h2 : (a1 == t) with
      | true =>
        simp only [cpGetOpt, List.find?, h2, if_pos] at *
        simp [h1] at *
        exact ih
      | false =>
        simp only [cpGetOpt, List.find?, h2, if_neg] at *
        simp [h1] at *
        exact ih

/-- The writing loop of `save` preserves the lookup of every
`(section, option)` pair not owned by the processed descriptors. -/
theorem saveFields_preserves (c : TeaConsoleConfig) (s o : String)
    (es : List (String × ConfigField))
    (hes : ∀ q ∈ es, ¬(s = q.2.sec ∧ o = q.2.option)) :
    ∀ cp cp', saveFields c cp es = .ok cp' → cpGetOpt cp' s o = cpGetOpt cp s o := by
  induction es with
  | nil =>
    intro cp cp' hok
    simp only [saveFields] at hok
    cases hok
    rfl
  | cons a rest ih =>
    intro cp cp' hok
    obtain ⟨field, entry⟩ := a
    simp only [saveFields] at hok
    cases hget : c.get field with
    | error e => rw [hget] at hok; cases hok
    | ok str =>
      rw [hget] at hok
      have hrest : ∀ q ∈ rest, ¬(s = q.2.sec ∧ o = q.2.option) :=
        fun q hq => hes q (List.mem_cons_of_mem _ hq)
      have h1 := ih hrest _ _ hok
      rw [h1, cpGetOpt_cpSet_ne _ _ _ _ _ _ (hes (field, entry) (List.mem_cons_self _ _))]
      by_cases hsec : cpHasSection cp entry.sec
      · simp [hsec]
      · simp [hsec, cpGetOpt_addSection]

/-- C2: an unrelated `(section, option)` pair — one not owned by the
registry — resolves to the same value (or absence) in the backing file
after `save` as before it: `save` only rewrites the pairs owned by the
registry. -/
theorem save_preserves_unrelated (c : TeaConsoleConfig) (cp : CPData) (s o : String)
    (h : (s, o) ∉ ownedPairs) (cp' : CPData)
    (hsave : c.save (some cp) = .ok cp') :
    cpGetOpt cp' s o = cpGetOpt cp s o := by
  have hes : ∀ q ∈ ENTRIES, ¬(s = q.2.sec ∧ o = q.2.option) := by
    intro q hq hc
    apply h
    rw [ownedPairs]
    obtain ⟨h1, h2⟩ := hc
    subst h1
    subst h2
    exact List.mem_map_of_mem _ hq
  simp only [TeaConsoleConfig.save] at hsave
  cases hsf : saveFields c cp ENTRIES with
  | error e => rw [hsf] at hsave; cases he : e.isInvalidConfiguration <;>
      simp [he] at hsave
  | ok cp2 =>
    rw [hsf] at hsave
    cases hsave
    exact saveFields_preserves c s o ENTRIES hes cp cp' hsf

/-- Witness for C2: `save` on `cfg0` over a file holding the unrelated
section `extra` (option `k`) and the unrelated option `other` inside the
owned section `general`; both lookups are preserved. -/
theorem save_preserves_unrelated_witness :
    (("extra", "k") ∉ ownedPairs ∧ ("general", "other") ∉ ownedPairs) ∧
    cpGetOpt ((cfg0.save (some cpUnrelated)).toOption.getD []) "extra" "k" =
      cpGetOpt cpUnrelated "extra" "k" ∧
    cpGetOpt ((cfg0.save (some cpUnrelated)).toOption.getD []) "general" "other" =
      cpGetOpt cpUnrelated "general" "other" := by
  refine ⟨⟨by decide, by decide⟩, ?_, ?_⟩
  · exact save_preserves_unrelated cfg0 cpUnrelated "extra" "k" (by decide) _ rfl
  · exact save_preserves_unrelated cfg0 cpUnrelated "general" "other" (by decide) _ rfl

/-! ## C1 -/

/-- The `format` field's descriptor, as registered in `ENTRIES`. -/
def formatField : ConfigField :=
  { sec := "general", option := "format", to_value := some ConsoleFormat.fromValue,
    to_string := some formatToString }

/-- The `timezone` field's descriptor, as registered in `ENTRIES`. -/
def tzField : ConfigField :=
  { sec := "general", option := "timezone", to_value := some pytzTimezone,
    to_string := some tzZone }

/-- The `log_dir` field's descriptor, as registered in `ENTRIES`. -/
def logDirField : ConfigField :=
  { sec := "general", option := "log_dir" }

/-- The spec's "valid typed value" of a registered field: the data-model
invariant that each attribute holds a value consistent with its
descriptor's declared type after applying `decode` — a boolean for
`debug`, a `ConsoleFormat` member for `format`, a known zone for
`timezone`, a string for `log_dir`. -/
def validValue (field : String) (v : Value) : Bool :=
  if field = "debug" then
    match v with
    | .vbool _ => true
    | _ => false
  else if field = "format" then
    match v with
    | .vformat _ => true
    | _ => false
  else if field = "timezone" then
    match v with
    | .vtz z => knownZones.contains z
    | _ => false
  else if field = "log_dir" then
    match v with
    | .vstr _ => true
    | _ => false
  else false

/-- C1: for every registered field and every valid typed value `v` of
that field, decoding the encoded string form yields the value back:
with the attribute holding `v`, `get(field)` succeeds with some string
`s` and `set(field, s)` succeeds and leaves the instance unchanged. -/
theorem roundtrip_set_get (c : TeaConsoleConfig) (field : String) (v : Value)
    (hv : validValue field v = true) :
    ∃ s, (c.setattr field v).get field = .ok s ∧
      (c.setattr field v).set field s = .ok (c.setattr field v) := by
  by_cases h1 : field = "debug"
  · subst h1
    cases v with
    | vbool b =>
      cases b with
      | false => exact ⟨"false", rfl, rfl⟩
      | true => exact ⟨"true", rfl, rfl⟩
    | vnull => simp [validValue] at hv
    | vint n => simp [validValue] at hv
    | vstr s => simp [validValue] at hv
    | vformat f => simp [validValue] at hv
    | vtz z => simp [validValue] at hv
  · by_cases h2 : field = "format"
    · subst h2
      cases v with
      | vformat f =>
        cases f with
        | text => exact ⟨"\"text\"", rfl, rfl⟩
        | json => exact ⟨"\"json\"", rfl, rfl⟩
      | vnull => simp [validValue] at hv
      | vbool b => simp [validValue] at hv
      | vint n => simp [validValue] at hv
      | vstr s => simp [validValue] at hv
      | vtz z => simp [validValue] at hv
    · by_cases h3 : field = "timezone"
      · subst h3
        cases v with
        | vtz z =>
          have hz : knownZones.contains z = true := by simpa [validValue] using hv
          refine ⟨"\"" ++ String.mk (jsonEscape z.data) ++ "\"", rfl, ?_⟩
          have hlook : ENTRIES.lookup "timezone" = some tzField := rfl
          have hwrap : quoteWrap tzField ("\"" ++ String.mk (jsonEscape z.data) ++ "\"") =
              "\"" ++ String.mk (jsonEscape z.data) ++ "\"" :=
            quoteWrap_of_quoted _ _
              (by simp [pyStartsWithQuote_quoted, pyEndsWithQuote_quoted])
          have hz2 : z ∈ knownZones := by simpa using hz
          simp only [TeaConsoleConfig.set, setAttempt, hlook, hwrap, jsonLoads_dumps_str]
          simp [shapeMismatch, isinstance, tzField, pytzTimezone, hz, hz2,
            TeaConsoleConfig.setattr]
        | vnull => simp [validValue] at hv
        | vbool b => simp [validValue] at hv
        | vint n => simp [validValue] at hv
        | vstr s => simp [validValue] at hv
        | vformat f => simp [validValue] at hv
      · by_cases h4 : field = "log_dir"
        · subst h4
          cases v with
          | vstr s =>
            refine ⟨"\"" ++ String.mk (jsonEscape s.data) ++ "\"", rfl, ?_⟩
            have hlook : ENTRIES.lookup "log_dir" = some logDirField := rfl
            have hwrap : quoteWrap logDirField
                ("\"" ++ String.mk (jsonEscape s.data) ++ "\"") =
                "\"" ++ String.mk (jsonEscape s.data) ++ "\"" :=
              quoteWrap_of_quoted _ _
                (by simp [pyStartsWithQuote_quoted, pyEndsWithQuote_quoted])
            simp only [TeaConsoleConfig.set, setAttempt, hlook, hwrap, jsonLoads_dumps_str]
            simp [shapeMismatch, isinstance, logDirField, TeaConsoleConfig.setattr]
          | vnull => simp [validValue] at hv
          | vbool b => simp [validValue] at hv
          | vint n => simp [validValue] at hv
          | vformat f => simp [validValue] at hv
          | vtz z => simp [validValue] at hv
        · simp only [validValue, if_neg h1, if_neg h2, if_neg h3, if_neg h4] at hv
          exact absurd hv (by decide)

/-- Witness for C1 at the `log_dir` field holding the concrete string
`/tmp`. -/
theorem roundtrip_set_get_witness :
    ∃ s, (cfg0.setattr "log_dir" (.vstr "/tmp")).get "log_dir" = .ok s ∧
      (cfg0.setattr "log_dir" (.vstr "/tmp")).set "log_dir" s =
        .ok (cfg0.setattr "log_dir" (.vstr "/tmp")) :=
  roundtrip_set_get cfg0 "log_dir" (.vstr "/tmp") (by decide)
